import Mathlib

/-!
# gitlab-trigger-proxy: webhook-to-trigger pipeline

A shallow embedding of `gitlab-trigger-proxy/main.go` and `utils.go`.

* Go `string` is `String`, Go `[]string` is `List String` (a nil slice and an
  empty slice are both `[]`; the code only ranges over and appends to them).
* Go `map[string][]string` is an association list with unique keys (`FormData`).
* A pointer that may be nil is an `Option`; dereferencing nil is a runtime panic,
  which the functions below report as `none`.
* The two effects of the handler that are observable from outside are its HTTP
  response and the outbound `http.PostForm` calls; both are returned as values.
  `log.Println` calls change neither and are left out.
* The library calls `url.Parse`, `http.PostForm` and `json.Decoder.Decode` are not
  part of the repository. The first two are fields of `Env`; the outcome of
  decoding a request body is carried by the request itself.
-/

namespace GitlabTriggerProxy

/-! ## Library primitives -/

/-- Go `strings.HasPrefix(s, p)`: `p` is a literal leading segment of `s`. Go
compares bytes; on UTF-8 text a leading byte segment that is itself UTF-8 text is a
leading character segment, so the comparison is made on characters here. -/
def stringsHasPrefix (s p : String) : Bool :=
  p.data.isPrefixOf s.data

/-- Go `strings.Join(elems, sep)`. -/
def stringsJoin (elems : List String) (sep : String) : String :=
  match elems with
  | [] => ""
  | e :: rest => rest.foldl (fun b s => b ++ sep ++ s) e

/-- Go `map[string][]string`. Keys are unique; the order of entries carries no meaning. -/
abbrev FormData := List (String × List String)

/-- Go `m[k] = v`: overwrite the entry of `k`, or add one. -/
def mapSet (m : FormData) (k : String) (v : List String) : FormData :=
  match m with
  | [] => [(k, v)]
  | (k0, v0) :: rest => if k0 = k then (k, v) :: rest else (k0, v0) :: mapSet rest k v

/-- Go `v, ok := m[k]`. -/
def mapGet (m : FormData) (k : String) : Option (List String) :=
  match m with
  | [] => none
  | (k0, v0) :: rest => if k0 = k then some v0 else mapGet rest k

/-- The keys present in a map. -/
def mapKeys (m : FormData) : List String :=
  m.map Prod.fst

/-! ## Data model (`utils.go`, `main.go`) -/

/-- One element of `pushEventPayload.Commits`. -/
structure Commit where
  Added : List String
  Modified : List String
  Removed : List String
deriving DecidableEq, Repr

/-- The anonymous struct of `pushEventPayload.Project`. -/
structure ProjectInfo where
  Name : String
  Namespace : String
  Homepage : String
  WebURL : String
  PathWithNamespace : String
deriving DecidableEq, Repr

/-- The JSON payload of a GitLab push event webhook. `Commits` is a slice of
pointers: a JSON `null` entry decodes to a nil pointer (`none`). -/
structure pushEventPayload where
  ObjectKind : String
  ProjectID : Int
  Ref : String
  Project : ProjectInfo
  Commits : List (Option Commit)
  TotalCommitsCount : Int
deriving DecidableEq, Repr

/-- The command line configuration. -/
structure config where
  trackedDirectories : List String
  trackedFiles : List String
  triggerToken : String
  webhookSecretToken : String
  listenAddress : String
  separator : String
  gitlabHost : String
deriving DecidableEq, Repr

/-- The errors `parseWebhookRequest` returns. -/
inductive ParseError where
  | secretMismatch
  | decode (msg : String)
  | notPush
deriving DecidableEq, Repr

/-- Go `err.Error()` for the errors of `parseWebhookRequest`. -/
def ParseError.Error : ParseError → String
  | .secretMismatch => "webhook secret token does not match"
  | .decode msg => msg
  | .notPush => "can only handle GitLab push event webhooks"

/-- An inbound request: the values of its `x-gitlab-token` header (none when the
header is missing) and what `json.NewDecoder(r.Body).Decode` yields on its body. -/
structure Request where
  xGitlabToken : List String
  Body : Except String pushEventPayload

/-- Go `r.Header.Get("x-gitlab-token")`: the first value, `""` when there is none. -/
def Request.headerGet (r : Request) : String :=
  match r.xGitlabToken with
  | [] => ""
  | v :: _ => v

/-- What the handler writes to the `http.ResponseWriter`. -/
structure Response where
  status : Nat
  body : String
deriving DecidableEq, Repr

/-- Go `http.Error(w, msg, code)`: status `code`, and `msg` printed with `Fprintln`. -/
def httpError (msg : String) (code : Nat) : Response :=
  ⟨code, msg ++ "\n"⟩

/-- Go `w.WriteHeader(code)` with nothing written after it. -/
def writeHeader (code : Nat) : Response :=
  ⟨code, ""⟩

/-- The fields of a parsed `url.URL` the code reads. -/
structure URL where
  Scheme : String
  Host : String
deriving DecidableEq, Repr

/-- The fields of an `http.Response` the code reads. -/
structure HTTPResponse where
  StatusCode : Nat
  Status : String
deriving DecidableEq, Repr

/-- The library and the network: `url.Parse` and `http.PostForm`. -/
structure Env where
  urlParse : String → Except String URL
  postForm : String → FormData → Except String HTTPResponse

/-- One call of `http.PostForm`. -/
structure PostCall where
  url : String
  form : FormData
deriving DecidableEq, Repr

/-- The errors `triggerPipeline` returns. -/
inductive DispatchError where
  | hostResolution (msg : String)
  | transport (msg : String)
  | rejected (status : String)
deriving DecidableEq, Repr

/-! ## `utils.go` -/

/-- `removeDuplicates`: one pass with the map `encountered` and the slice `result`. -/
def removeDuplicates (elements : List String) : List String :=
  (elements.foldl
    (fun (st : (String → Bool) × List String) (e : String) =>
      if st.1 e = true then st
      else (fun k => if k = e then true else st.1 k, st.2 ++ [e]))
    (fun _ => false, [])).2

/-! ## `main.go` -/

/-- `parseWebhookRequest`. The comparison of `TotalCommitsCount` with the number of
commits only logs a line; both branches return the payload. -/
def parseWebhookRequest (r : Request) (secretToken : String) :
    Except ParseError pushEventPayload :=
  if secretToken ≠ "" ∧ r.headerGet ≠ secretToken then
    .error .secretMismatch
  else
    match r.Body with
    | .error msg => .error (.decode msg)
    | .ok payload =>
      if payload.ObjectKind ≠ "push" then
        .error .notPush
      else if payload.TotalCommitsCount ≠ (payload.Commits.length : Int) then
        .ok payload
      else
        .ok payload

/-- `getChangedPathsInCommits`. `none` is the nil pointer dereference at
`commit.Added` for a nil entry of `Commits`. -/
def getChangedPathsInCommits (payload : pushEventPayload) : Option (List String) :=
  payload.Commits.foldlM
    (fun (changedFiles : List String) (commit : Option Commit) =>
      match commit with
      | none => none
      | some c =>
        let changedFilesInThisCommit : List String := []
        let changedFilesInThisCommit := changedFilesInThisCommit ++ c.Added
        let changedFilesInThisCommit := changedFilesInThisCommit ++ c.Removed
        let changedFilesInThisCommit := changedFilesInThisCommit ++ c.Modified
        some (changedFiles ++ changedFilesInThisCommit))
    []

/-- `matchChangedToTrackedPaths`: the two inner loops run once per changed path. -/
def matchChangedToTrackedPaths (changedFiles trackedFiles trackedDirectories : List String) :
    List String × List String :=
  changedFiles.foldl
    (fun (acc : List String × List String) (changedFile : String) =>
      (trackedFiles.foldl
          (fun (fs : List String) (filePath : String) =>
            if filePath = changedFile then fs ++ [filePath] else fs)
          acc.1,
        trackedDirectories.foldl
          (fun (ds : List String) (directoryPath : String) =>
            if stringsHasPrefix changedFile directoryPath = true then ds ++ [directoryPath]
            else ds)
          acc.2))
    ([], [])

/-- `buildTriggerVariables`. -/
def buildTriggerVariables (separator : String) (files directories : List String) : FormData :=
  let result : FormData := []
  let result := mapSet result "variables[FILES_CHANGED]"
    [stringsJoin (removeDuplicates files) separator]
  let result := mapSet result "variables[DIRECTORIES_CHANGED]"
    [stringsJoin (removeDuplicates directories) separator]
  result

/-- `computeTriggerVariables`. `none` when `getChangedPathsInCommits` panics. -/
def computeTriggerVariables (payload : pushEventPayload) (c : config) : Option FormData :=
  match getChangedPathsInCommits payload with
  | none => none
  | some changedPaths =>
    let fd := matchChangedToTrackedPaths changedPaths c.trackedFiles c.trackedDirectories
    some (buildTriggerVariables c.separator fd.1 fd.2)

/-- `triggerPipeline`: the returned error (if any) and the `http.PostForm` calls made. -/
def triggerPipeline (env : Env) (gitlabHost triggerToken : String)
    (payload : pushEventPayload) (formData : FormData) :
    Except DispatchError Unit × List PostCall :=
  let formData := mapSet formData "token" [triggerToken]
  let formData := mapSet formData "ref" [payload.Ref]
  match env.urlParse payload.Project.Homepage with
  | .error msg => (.error (.hostResolution msg), [])
  | .ok webURL =>
    let gitlabHost := if gitlabHost = "" then webURL.Scheme ++ "://" ++ webURL.Host else gitlabHost
    let gitlabTriggerURL :=
      gitlabHost ++ "/api/v4/projects/" ++ toString payload.ProjectID ++ "/trigger/pipeline"
    match env.postForm gitlabTriggerURL formData with
    | .error msg => (.error (.transport msg), [⟨gitlabTriggerURL, formData⟩])
    | .ok resp =>
      if resp.StatusCode ≥ 400 then
        (.error (.rejected resp.Status), [⟨gitlabTriggerURL, formData⟩])
      else
        (.ok (), [⟨gitlabTriggerURL, formData⟩])

/-- `ServeHTTP`: the response written and the `http.PostForm` calls made. A panic
below the handler is recovered by the deferred function, which writes status 500. -/
def ServeHTTP (env : Env) (s : config) (r : Request) : Response × List PostCall :=
  match parseWebhookRequest r s.webhookSecretToken with
  | .error err => (httpError err.Error 400, [])
  | .ok payload =>
    match computeTriggerVariables payload s with
    | none => (writeHeader 500, [])
    | some vars =>
      match triggerPipeline env s.gitlabHost s.triggerToken payload vars with
      | (.error _, calls) => (writeHeader 500, calls)
      | (.ok _, calls) => (writeHeader 200, calls)

/-! ## A concrete environment for evaluation -/

/-- The scheme scanner `getScheme` of Go `net/url`, on the characters not yet read;
`seen` holds the characters already accepted. A colon in first position is the
error "missing protocol scheme". -/
def getSchemeFrom (rawURL : List Char) (seen : List Char) : List Char →
    Except String (List Char × List Char)
  | [] => .ok ([], rawURL)
  | ch :: cs =>
    if ch.isAlpha then getSchemeFrom rawURL (seen ++ [ch]) cs
    else if ch.isDigit || ch == '+' || ch == '-' || ch == '.' then
      if seen = [] then .ok ([], rawURL) else getSchemeFrom rawURL (seen ++ [ch]) cs
    else if ch == ':' then
      if seen = [] then .error "missing protocol scheme" else .ok (seen, cs)
    else .ok ([], rawURL)

/-- A fragment of Go `url.Parse`, for URLs of the shape `scheme://host/path`: the
scheme is found by `getScheme` and lower-cased, the host is what stands between
`//` and the next slash. User info, ports, queries, fragments and escapes are not
treated; the only failure is the one of `getScheme`. -/
def urlParseSchemeHost (rawURL : String) : Except String URL :=
  match getSchemeFrom rawURL.data [] rawURL.data with
  | .error msg => .error msg
  | .ok (scheme, rest) =>
    match rest with
    | '/' :: '/' :: authority =>
      .ok ⟨String.mk (scheme.map Char.toLower), String.mk (authority.takeWhile (fun ch => ch != '/'))⟩
    | _ => .ok ⟨String.mk (scheme.map Char.toLower), ""⟩

/-- An environment whose downstream answers every trigger call with 201. -/
def envCreated : Env :=
  ⟨urlParseSchemeHost, fun _ _ => .ok ⟨201, "201 Created"⟩⟩

/-- An environment whose downstream answers every trigger call with 502. -/
def envBadGateway : Env :=
  ⟨urlParseSchemeHost, fun _ _ => .ok ⟨502, "502 Bad Gateway"⟩⟩

/-- A configuration: tracked file "app/config.yml", tracked directory "lib/",
separator ",", no webhook secret, no host override. -/
def cfgDemo : config :=
  { trackedDirectories := ["lib/"], trackedFiles := ["app/config.yml"], triggerToken := "t0k3n",
    webhookSecretToken := "", listenAddress := ":8080", separator := ",", gitlabHost := "" }

/-- The project of the example payloads. -/
def projectDemo : ProjectInfo :=
  { Name := "repo", Namespace := "group", Homepage := "https://gitlab.example.com/group/repo",
    WebURL := "https://gitlab.example.com/group/repo", PathWithNamespace := "group/repo" }

/-- A push with one commit modifying three paths. -/
def payloadDemo : pushEventPayload :=
  { ObjectKind := "push", ProjectID := 15, Ref := "refs/heads/master", Project := projectDemo,
    Commits := [some ⟨[], ["app/config.yml", "lib/util.go", "README.md"], []⟩],
    TotalCommitsCount := 1 }

/-! ## Specification-side definitions -/

/-- The input with every later repeat of an element deleted: each element is kept
at its first occurrence only. -/
def keepFirstOccurrences : List String → List String
  | [] => []
  | x :: xs => x :: (keepFirstOccurrences xs).filter (fun y => decide (y ≠ x))

/-- The tracked entries hit while scanning: for each scanned path in order, the
tracked entries (in configuration order) that the path matches. -/
def scanMatches (hit : String → String → Bool) (scanned tracked : List String) : List String :=
  scanned.flatMap (fun c => tracked.filter (fun t => hit c t))

/-- The changed paths in scanning order: commits in payload order, and within a
commit the added, then the removed, then the modified paths. -/
def scannedPaths (payload : pushEventPayload) : List String :=
  payload.Commits.flatMap (fun o =>
    match o with
    | none => []
    | some k => k.Added ++ k.Removed ++ k.Modified)

/-- The position of the first scanned path that matches the tracked entry `t`. -/
def firstHit (hit : String → String → Bool) (scanned : List String) (t : String) : Nat :=
  scanned.findIdx (fun c => hit c t)

/-- The order of the matched entries: by the first scanned path that matches, and
for entries first matched by the same path, by position in the configuration. -/
def scanBefore (hit : String → String → Bool) (scanned tracked : List String)
    (a b : String) : Prop :=
  firstHit hit scanned a < firstHit hit scanned b ∨
    (firstHit hit scanned a = firstHit hit scanned b ∧ tracked.indexOf a < tracked.indexOf b)

/-! ## Concrete inputs -/

/-- A push whose only commit touches no tracked path, and whose
`total_commits_count` (25) differs from the number of commits present (1). -/
def payloadUntracked : pushEventPayload :=
  { ObjectKind := "push", ProjectID := 15, Ref := "refs/heads/master", Project := projectDemo,
    Commits := [some ⟨["README.md"], [], []⟩], TotalCommitsCount := 25 }

/-- A push whose `commits` array is `[null]`. -/
def payloadNullCommit : pushEventPayload :=
  { ObjectKind := "push", ProjectID := 15, Ref := "refs/heads/master", Project := projectDemo,
    Commits := [none], TotalCommitsCount := 1 }

/-- A push whose project homepage is ":", which `url.Parse` rejects with
"missing protocol scheme". -/
def payloadColonHomepage : pushEventPayload :=
  { ObjectKind := "push", ProjectID := 15, Ref := "refs/heads/master",
    Project := { projectDemo with Homepage := ":" },
    Commits := [some ⟨[], ["app/config.yml"], []⟩], TotalCommitsCount := 1 }

/-- A merge request event. -/
def payloadMergeRequest : pushEventPayload :=
  { ObjectKind := "merge_request", ProjectID := 15, Ref := "refs/heads/master",
    Project := projectDemo, Commits := [], TotalCommitsCount := 0 }

/-- The configuration `cfgDemo` with the webhook secret "s3cret". -/
def cfgSecret : config :=
  { cfgDemo with webhookSecretToken := "s3cret" }

/-- The configuration `cfgDemo` with the host override "https://gitlab.internal". -/
def cfgOverride : config :=
  { cfgDemo with gitlabHost := "https://gitlab.internal" }

/-! ## Lemmas on the library primitives -/

theorem stringsHasPrefix_iff (s p : String) :
    stringsHasPrefix s p = true ↔ ∃ rest : String, s = p ++ rest := by
  unfold stringsHasPrefix
  rw [List.isPrefixOf_iff_prefix]
  constructor
  · rintro ⟨t, ht⟩
    exact ⟨⟨t⟩, by apply String.ext; simpa using ht.symm⟩
  · rintro ⟨rest, rfl⟩
    exact ⟨rest.data, by simp⟩

theorem mapGet_mapSet_self (m : FormData) (k : String) (v : List String) :
    mapGet (mapSet m k v) k = some v := by
  induction m with
  | nil => simp [mapSet, mapGet]
  | cons e rest ih =>
    obtain ⟨k0, v0⟩ := e
    by_cases h : k0 = k
    · simp [mapSet, mapGet, h]
    · simp [mapSet, mapGet, h, ih]

theorem mapGet_mapSet_ne (m : FormData) (k j : String) (v : List String) (h : k ≠ j) :
    mapGet (mapSet m k v) j = mapGet m j := by
  induction m with
  | nil => simp [mapSet, mapGet, h]
  | cons e rest ih =>
    obtain ⟨k0, v0⟩ := e
    by_cases h0 : k0 = k
    · subst h0
      simp [mapSet, mapGet, h]
    · simp [mapSet, mapGet, h0, ih]

/-! ## Lemmas on `removeDuplicates` -/

theorem removeDuplicates_fold (xs : List String) (enc : String → Bool) (res : List String) :
    (xs.foldl
      (fun (st : (String → Bool) × List String) (e : String) =>
        if st.1 e = true then st
        else (fun k => if k = e then true else st.1 k, st.2 ++ [e]))
      (enc, res)).2
      = res ++ (keepFirstOccurrences xs).filter (fun y => !enc y) := by
  induction xs generalizing enc res with
  | nil => simp [keepFirstOccurrences]
  | cons x xs ih =>
    simp only [List.foldl_cons, keepFirstOccurrences]
    by_cases hx : enc x = true
    · rw [if_pos hx, ih]
      congr 1
      simp only [List.filter_cons, hx, Bool.not_true, Bool.false_eq_true, if_false,
        List.filter_filter]
      apply List.filter_congr
      intro y _
      by_cases hy : y = x
      · subst hy; simp [hx]
      · simp [hy]
    · rw [if_neg hx, ih]
      have hx2 : enc x = false := by simpa using hx
      simp only [List.filter_cons, hx2, Bool.not_false, if_true, List.filter_filter,
        List.append_assoc, List.singleton_append]
      congr 2
      apply List.filter_congr
      intro y _
      by_cases hy : y = x
      · subst hy; simp
      · simp [hy]

theorem removeDuplicates_eq_keepFirstOccurrences (xs : List String) :
    removeDuplicates xs = keepFirstOccurrences xs := by
  unfold removeDuplicates
  rw [removeDuplicates_fold]
  simp

theorem mem_keepFirstOccurrences (xs : List String) (a : String) :
    a ∈ keepFirstOccurrences xs ↔ a ∈ xs := by
  induction xs with
  | nil => simp [keepFirstOccurrences]
  | cons x xs ih =>
    simp only [keepFirstOccurrences, List.mem_cons, List.mem_filter, ih]
    by_cases h : a = x
    · simp [h]
    · simp [h]

theorem nodup_keepFirstOccurrences (xs : List String) : (keepFirstOccurrences xs).Nodup := by
  induction xs with
  | nil => simp [keepFirstOccurrences]
  | cons x xs ih =>
    simp only [keepFirstOccurrences]
    refine List.nodup_cons.mpr ⟨?_, ih.filter _⟩
    simp [List.mem_filter]

theorem keepFirstOccurrences_of_nodup (xs : List String) (h : xs.Nodup) :
    keepFirstOccurrences xs = xs := by
  induction xs with
  | nil => rfl
  | cons x xs ih =>
    obtain ⟨hx, hxs⟩ := List.nodup_cons.mp h
    simp only [keepFirstOccurrences, ih hxs]
    congr 1
    rw [List.filter_eq_self]
    intro a ha
    have : a ≠ x := fun e => hx (e ▸ ha)
    simpa using this

theorem keepFirstOccurrences_idem (xs : List String) :
    keepFirstOccurrences (keepFirstOccurrences xs) = keepFirstOccurrences xs :=
  keepFirstOccurrences_of_nodup _ (nodup_keepFirstOccurrences xs)

theorem keepFirstOccurrences_sublist (xs : List String) :
    (keepFirstOccurrences xs).Sublist xs := by
  induction xs with
  | nil => simp [keepFirstOccurrences]
  | cons x xs ih =>
    simp only [keepFirstOccurrences]
    exact List.Sublist.cons₂ x ((List.filter_sublist _).trans ih)

theorem keepFirstOccurrences_ordered (xs : List String) :
    (keepFirstOccurrences xs).Pairwise (fun a b => xs.indexOf a < xs.indexOf b) := by
  induction xs with
  | nil => simp [keepFirstOccurrences]
  | cons x xs ih =>
    simp only [keepFirstOccurrences]
    refine List.pairwise_cons.mpr ⟨?_, ?_⟩
    · intro b hb
      have hbx : b ≠ x := by simpa using (List.mem_filter.mp hb).2
      rw [List.indexOf_cons_self, List.indexOf_cons_ne _ (Ne.symm hbx)]
      exact Nat.succ_pos _
    · have h2 := ih.filter (fun y => decide (y ≠ x))
      refine List.Pairwise.imp_of_mem ?_ h2
      intro a b ha hb hab
      have hax : a ≠ x := by simpa using (List.mem_filter.mp ha).2
      have hbx : b ≠ x := by simpa using (List.mem_filter.mp hb).2
      rw [List.indexOf_cons_ne _ (Ne.symm hax), List.indexOf_cons_ne _ (Ne.symm hbx)]
      exact Nat.succ_lt_succ hab

/-! ## Lemmas on `matchChangedToTrackedPaths` -/

theorem foldl_append_if (p : String → Bool) (tracked acc : List String) :
    tracked.foldl (fun (fs : List String) (t : String) => if p t = true then fs ++ [t] else fs) acc
      = acc ++ tracked.filter p := by
  induction tracked generalizing acc with
  | nil => simp
  | cons t ts ih =>
    simp only [List.foldl_cons, List.filter_cons]
    by_cases h : p t = true
    · simp [h, ih]
    · simp [h, ih]

theorem matchChangedToTrackedPaths_fold (C F D : List String) (acc : List String × List String) :
    C.foldl
      (fun (acc : List String × List String) (changedFile : String) =>
        (F.foldl
            (fun (fs : List String) (filePath : String) =>
              if filePath = changedFile then fs ++ [filePath] else fs)
            acc.1,
          D.foldl
            (fun (ds : List String) (directoryPath : String) =>
              if stringsHasPrefix changedFile directoryPath = true then ds ++ [directoryPath]
              else ds)
            acc.2))
      acc
      = (acc.1 ++ scanMatches (fun c f => decide (f = c)) C F,
         acc.2 ++ scanMatches (fun c d => stringsHasPrefix c d) C D) := by
  induction C generalizing acc with
  | nil => simp [scanMatches]
  | cons c cs ih =>
    simp only [List.foldl_cons]
    rw [ih]
    have h1 := foldl_append_if (fun f => decide (f = c)) F acc.1
    have h2 := foldl_append_if (fun d => stringsHasPrefix c d) D acc.2
    simp only [decide_eq_true_eq] at h1
    rw [h1, h2]
    simp [scanMatches, List.flatMap_cons, List.append_assoc]

theorem matchChangedToTrackedPaths_eq (C F D : List String) :
    matchChangedToTrackedPaths C F D
      = (scanMatches (fun c f => decide (f = c)) C F,
         scanMatches (fun c d => stringsHasPrefix c d) C D) := by
  unfold matchChangedToTrackedPaths
  rw [matchChangedToTrackedPaths_fold]
  simp

theorem mem_scanMatches (hit : String → String → Bool) (scanned tracked : List String)
    (t : String) :
    t ∈ scanMatches hit scanned tracked ↔ t ∈ tracked ∧ ∃ c ∈ scanned, hit c t = true := by
  simp only [scanMatches, List.mem_flatMap, List.mem_filter]
  constructor
  · rintro ⟨c, hc, ht, hh⟩
    exact ⟨ht, c, hc, hh⟩
  · rintro ⟨ht, c, hc, hh⟩
    exact ⟨c, hc, ht, hh⟩

/-! ## Lemmas on the order of the matched entries -/

theorem keepFirstOccurrences_append (A B : List String) :
    keepFirstOccurrences (A ++ B)
      = keepFirstOccurrences A ++ (keepFirstOccurrences B).filter (fun y => decide (y ∉ A)) := by
  induction A with
  | nil => simp [keepFirstOccurrences]
  | cons a A ih =>
    rw [List.cons_append]
    simp only [keepFirstOccurrences]
    rw [ih]
    simp only [List.filter_append, List.filter_filter, List.cons_append]
    congr 2
    apply List.filter_congr
    intro y _
    by_cases hy : y = a
    · subst hy; simp
    · simp [hy]

theorem keepFirstOccurrences_filter (p : String → Bool) (l : List String) :
    keepFirstOccurrences (l.filter p) = (keepFirstOccurrences l).filter p := by
  induction l with
  | nil => simp [keepFirstOccurrences]
  | cons x xs ih =>
    by_cases hx : p x = true
    · simp only [List.filter_cons, hx, if_true, keepFirstOccurrences, ih, List.filter_filter]
      congr 1
      apply List.filter_congr
      intro y _
      exact Bool.and_comm _ _
    · have hx2 : p x = false := by simpa using hx
      simp only [List.filter_cons, hx2, Bool.false_eq_true, if_false, keepFirstOccurrences, ih,
        List.filter_filter]
      apply List.filter_congr
      intro y _
      by_cases hy : y = x
      · subst hy; simp [hx2]
      · simp [hy]

theorem firstHit_cons_hit (hit : String → String → Bool) (c : String) (cs : List String)
    (t : String) (h : hit c t = true) : firstHit hit (c :: cs) t = 0 := by
  simp [firstHit, List.findIdx_cons, h]

theorem firstHit_cons_miss (hit : String → String → Bool) (c : String) (cs : List String)
    (t : String) (h : hit c t = false) : firstHit hit (c :: cs) t = firstHit hit cs t + 1 := by
  simp [firstHit, List.findIdx_cons, h]

theorem keepFirstOccurrences_scanMatches_ordered (hit : String → String → Bool)
    (scanned tracked : List String) :
    (keepFirstOccurrences (scanMatches hit scanned tracked)).Pairwise
      (scanBefore hit scanned tracked) := by
  induction scanned with
  | nil => simp [scanMatches, keepFirstOccurrences]
  | cons c cs ih =>
    have hcons : scanMatches hit (c :: cs) tracked
        = tracked.filter (fun t => hit c t) ++ scanMatches hit cs tracked := by
      simp [scanMatches, List.flatMap_cons]
    have hmiss : ∀ a, a ∈ (keepFirstOccurrences (scanMatches hit cs tracked)).filter
        (fun y => decide (y ∉ tracked.filter (fun t => hit c t))) → hit c a = false := by
      intro a ha
      obtain ⟨h1, h2⟩ := List.mem_filter.mp ha
      have h3 : a ∈ tracked :=
        ((mem_scanMatches hit cs tracked a).mp ((mem_keepFirstOccurrences _ a).mp h1)).1
      have h4 : a ∉ tracked.filter (fun t => hit c t) := of_decide_eq_true h2
      by_contra hc
      have hc2 : hit c a = true := by simpa using hc
      exact h4 (List.mem_filter.mpr ⟨h3, hc2⟩)
    rw [hcons, keepFirstOccurrences_append, keepFirstOccurrences_filter, List.pairwise_append]
    refine ⟨?_, ?_, ?_⟩
    · have h0 := (keepFirstOccurrences_ordered tracked).filter (fun t => hit c t)
      refine List.Pairwise.imp_of_mem ?_ h0
      intro a b ha hb hab
      have ha2 : hit c a = true := (List.mem_filter.mp ha).2
      have hb2 : hit c b = true := (List.mem_filter.mp hb).2
      right
      rw [firstHit_cons_hit hit c cs a ha2, firstHit_cons_hit hit c cs b hb2]
      exact ⟨rfl, hab⟩
    · have h0 := ih.filter (fun y => decide (y ∉ tracked.filter (fun t => hit c t)))
      refine List.Pairwise.imp_of_mem ?_ h0
      intro a b ha hb hab
      unfold scanBefore at hab ⊢
      rw [firstHit_cons_miss hit c cs a (hmiss a ha), firstHit_cons_miss hit c cs b (hmiss b hb)]
      rcases hab with hab | ⟨hab1, hab2⟩
      · exact Or.inl (Nat.succ_lt_succ hab)
      · exact Or.inr ⟨congrArg Nat.succ hab1, hab2⟩
    · intro a ha b hb
      have ha2 : hit c a = true := (List.mem_filter.mp ha).2
      left
      rw [firstHit_cons_hit hit c cs a ha2, firstHit_cons_miss hit c cs b (hmiss b hb)]
      exact Nat.succ_pos _

/-! ## Lemmas on the handler -/

theorem buildTriggerVariables_eq (separator : String) (f d : List String) :
    buildTriggerVariables separator f d
      = [("variables[FILES_CHANGED]", [stringsJoin (removeDuplicates f) separator]),
         ("variables[DIRECTORIES_CHANGED]", [stringsJoin (removeDuplicates d) separator])] := by
  have hne : ("variables[FILES_CHANGED]" : String) ≠ "variables[DIRECTORIES_CHANGED]" := by decide
  simp [buildTriggerVariables, mapSet, hne]

theorem dispatchForm_eq (separator triggerToken ref : String) (f d : List String) :
    mapSet (mapSet (buildTriggerVariables separator f d) "token" [triggerToken]) "ref" [ref]
      = [("variables[FILES_CHANGED]", [stringsJoin (removeDuplicates f) separator]),
         ("variables[DIRECTORIES_CHANGED]", [stringsJoin (removeDuplicates d) separator]),
         ("token", [triggerToken]), ("ref", [ref])] := by
  have h1 : ("variables[FILES_CHANGED]" : String) ≠ "token" := by decide
  have h2 : ("variables[DIRECTORIES_CHANGED]" : String) ≠ "token" := by decide
  have h3 : ("variables[FILES_CHANGED]" : String) ≠ "ref" := by decide
  have h4 : ("variables[DIRECTORIES_CHANGED]" : String) ≠ "ref" := by decide
  have h5 : ("token" : String) ≠ "ref" := by decide
  rw [buildTriggerVariables_eq]
  simp [mapSet, h1, h2, h3, h4, h5]

theorem parseWebhookRequest_ok_iff (r : Request) (secret : String) (payload : pushEventPayload) :
    parseWebhookRequest r secret = .ok payload ↔
      (secret = "" ∨ r.headerGet = secret) ∧ r.Body = .ok payload ∧
        payload.ObjectKind = "push" := by
  unfold parseWebhookRequest
  by_cases h : secret ≠ "" ∧ r.headerGet ≠ secret
  · rw [if_pos h]
    constructor
    · intro h0
      cases h0
    · rintro ⟨h1, _, _⟩
      rcases h1 with h1 | h1
      · exact absurd h1 h.1
      · exact absurd h1 h.2
  · rw [if_neg h]
    have hs : secret = "" ∨ r.headerGet = secret := by
      by_contra hc
      exact h ⟨fun e => hc (Or.inl e), fun e => hc (Or.inr e)⟩
    cases hb : r.Body with
    | error msg =>
      constructor
      · intro h0
        cases h0
      · rintro ⟨_, h2, _⟩
        cases h2
    | ok p =>
      by_cases hk : p.ObjectKind = "push"
      · have hk2 : ¬ (p.ObjectKind ≠ "push") := fun hc => hc hk
        show (if p.ObjectKind ≠ "push" then Except.error ParseError.notPush
          else if p.TotalCommitsCount ≠ (p.Commits.length : Int) then Except.ok p
          else Except.ok p) = Except.ok payload ↔ _
        rw [if_neg hk2, ite_self]
        constructor
        · intro h0
          cases h0
          exact ⟨hs, rfl, hk⟩
        · rintro ⟨_, h2, _⟩
          cases h2
          rfl
      · have hk2 : p.ObjectKind ≠ "push" := hk
        show (if p.ObjectKind ≠ "push" then Except.error ParseError.notPush
          else if p.TotalCommitsCount ≠ (p.Commits.length : Int) then Except.ok p
          else Except.ok p) = Except.ok payload ↔ _
        rw [if_pos hk2]
        constructor
        · intro h0
          cases h0
        · rintro ⟨_, h2, h3⟩
          cases h2
          exact absurd h3 hk

theorem parseWebhookRequest_secretMismatch_iff (r : Request) (secret : String) :
    parseWebhookRequest r secret = .error .secretMismatch ↔
      secret ≠ "" ∧ r.headerGet ≠ secret := by
  unfold parseWebhookRequest
  by_cases h : secret ≠ "" ∧ r.headerGet ≠ secret
  · rw [if_pos h]
    exact ⟨fun _ => h, fun _ => rfl⟩
  · rw [if_neg h]
    constructor
    · intro h0
      cases hb : r.Body with
      | error msg =>
        rw [hb] at h0
        cases h0
      | ok p =>
        rw [hb] at h0
        have h1 : (if p.ObjectKind ≠ "push" then Except.error ParseError.notPush
          else if p.TotalCommitsCount ≠ (p.Commits.length : Int) then Except.ok p
          else Except.ok p) = Except.error ParseError.secretMismatch := h0
        by_cases hk : p.ObjectKind ≠ "push"
        · rw [if_pos hk] at h1
          cases h1
        · rw [if_neg hk, ite_self] at h1
          cases h1
    · intro h0
      exact absurd h0 h

theorem parseWebhookRequest_not_push (r : Request) (secret : String)
    (payload : pushEventPayload) (hbody : r.Body = .ok payload)
    (hkind : payload.ObjectKind ≠ "push") :
    parseWebhookRequest r secret
      = if secret ≠ "" ∧ r.headerGet ≠ secret then .error .secretMismatch
        else .error .notPush := by
  unfold parseWebhookRequest
  by_cases h : secret ≠ "" ∧ r.headerGet ≠ secret
  · rw [if_pos h, if_pos h]
  · rw [if_neg h, if_neg h, hbody]
    show (if payload.ObjectKind ≠ "push" then Except.error ParseError.notPush
      else if payload.TotalCommitsCount ≠ (payload.Commits.length : Int) then Except.ok payload
      else Except.ok payload) = Except.error ParseError.notPush
    rw [if_pos hkind]

theorem foldlM_changedPaths (l : List (Option Commit)) (acc : List String)
    (h : ∀ c ∈ l, c ≠ none) :
    l.foldlM
      (fun (changedFiles : List String) (commit : Option Commit) =>
        match commit with
        | none => none
        | some c =>
          let changedFilesInThisCommit : List String := []
          let changedFilesInThisCommit := changedFilesInThisCommit ++ c.Added
          let changedFilesInThisCommit := changedFilesInThisCommit ++ c.Removed
          let changedFilesInThisCommit := changedFilesInThisCommit ++ c.Modified
          some (changedFiles ++ changedFilesInThisCommit))
      acc
      = some (acc ++ l.flatMap (fun o =>
          match o with
          | none => []
          | some k => k.Added ++ k.Removed ++ k.Modified)) := by
  induction l generalizing acc with
  | nil => simp
  | cons c cs ih =>
    cases c with
    | none => exact absurd rfl (h none (List.mem_cons_self _ _))
    | some k =>
      have hcs : ∀ c ∈ cs, c ≠ none := fun c hc => h c (List.mem_cons_of_mem _ hc)
      have step := ih (acc ++ ((([] : List String) ++ k.Added) ++ k.Removed ++ k.Modified)) hcs
      exact step.trans (by simp [List.flatMap_cons, List.append_assoc])

theorem foldlM_changedPaths_nil_entry (l : List (Option Commit)) (acc : List String)
    (h : none ∈ l) :
    l.foldlM
      (fun (changedFiles : List String) (commit : Option Commit) =>
        match commit with
        | none => none
        | some c =>
          let changedFilesInThisCommit : List String := []
          let changedFilesInThisCommit := changedFilesInThisCommit ++ c.Added
          let changedFilesInThisCommit := changedFilesInThisCommit ++ c.Removed
          let changedFilesInThisCommit := changedFilesInThisCommit ++ c.Modified
          some (changedFiles ++ changedFilesInThisCommit))
      acc
      = none := by
  induction l generalizing acc with
  | nil => cases h
  | cons c cs ih =>
    cases c with
    | none =>
      rw [List.foldlM_cons]
      rfl
    | some k =>
      have hcs : none ∈ cs := by
        cases h with
        | tail _ h2 => exact h2
      exact ih (acc ++ ((([] : List String) ++ k.Added) ++ k.Removed ++ k.Modified)) hcs

theorem getChangedPathsInCommits_eq (payload : pushEventPayload)
    (h : ∀ c ∈ payload.Commits, c ≠ none) :
    getChangedPathsInCommits payload = some (scannedPaths payload) := by
  unfold getChangedPathsInCommits scannedPaths
  rw [foldlM_changedPaths _ _ h]
  simp

theorem getChangedPathsInCommits_nil_entry (payload : pushEventPayload)
    (h : none ∈ payload.Commits) :
    getChangedPathsInCommits payload = none := by
  unfold getChangedPathsInCommits
  exact foldlM_changedPaths_nil_entry _ _ h

theorem computeTriggerVariables_eq (payload : pushEventPayload) (c : config)
    (h : ∀ k ∈ payload.Commits, k ≠ none) :
    computeTriggerVariables payload c
      = some (buildTriggerVariables c.separator
          (scanMatches (fun p f => decide (f = p)) (scannedPaths payload) c.trackedFiles)
          (scanMatches (fun p d => stringsHasPrefix p d) (scannedPaths payload)
            c.trackedDirectories)) := by
  unfold computeTriggerVariables
  rw [getChangedPathsInCommits_eq payload h]
  simp only [matchChangedToTrackedPaths_eq]

theorem computeTriggerVariables_nil_entry (payload : pushEventPayload) (c : config)
    (h : none ∈ payload.Commits) :
    computeTriggerVariables payload c = none := by
  unfold computeTriggerVariables
  rw [getChangedPathsInCommits_nil_entry payload h]

theorem triggerPipeline_parse_error (env : Env) (gitlabHost triggerToken : String)
    (payload : pushEventPayload) (formData : FormData) (msg : String)
    (h : env.urlParse payload.Project.Homepage = .error msg) :
    triggerPipeline env gitlabHost triggerToken payload formData
      = (.error (.hostResolution msg), []) := by
  unfold triggerPipeline
  simp only [h]

theorem triggerPipeline_calls (env : Env) (gitlabHost triggerToken : String)
    (payload : pushEventPayload) (formData : FormData) (webURL : URL)
    (h : env.urlParse payload.Project.Homepage = .ok webURL) :
    (triggerPipeline env gitlabHost triggerToken payload formData).2
      = [⟨(if gitlabHost = "" then webURL.Scheme ++ "://" ++ webURL.Host else gitlabHost)
            ++ "/api/v4/projects/" ++ toString payload.ProjectID ++ "/trigger/pipeline",
          mapSet (mapSet formData "token" [triggerToken]) "ref" [payload.Ref]⟩] := by
  unfold triggerPipeline
  simp only [h]
  split
  · rfl
  · split <;> rfl

theorem triggerPipeline_result (env : Env) (gitlabHost triggerToken : String)
    (payload : pushEventPayload) (formData : FormData) (webURL : URL)
    (h : env.urlParse payload.Project.Homepage = .ok webURL) :
    (triggerPipeline env gitlabHost triggerToken payload formData).1
      = match env.postForm
            ((if gitlabHost = "" then webURL.Scheme ++ "://" ++ webURL.Host else gitlabHost)
              ++ "/api/v4/projects/" ++ toString payload.ProjectID ++ "/trigger/pipeline")
            (mapSet (mapSet formData "token" [triggerToken]) "ref" [payload.Ref]) with
        | .error msg => .error (.transport msg)
        | .ok resp => if resp.StatusCode ≥ 400 then .error (.rejected resp.Status) else .ok () := by
  unfold triggerPipeline
  simp only [h]
  split
  · rfl
  · split <;> rfl

theorem ServeHTTP_calls (env : Env) (s : config) (r : Request) (payload : pushEventPayload)
    (vars : FormData)
    (hp : parseWebhookRequest r s.webhookSecretToken = .ok payload)
    (hv : computeTriggerVariables payload s = some vars) :
    (ServeHTTP env s r).2 = (triggerPipeline env s.gitlabHost s.triggerToken payload vars).2 := by
  unfold ServeHTTP
  simp only [hp, hv]
  split <;> simp_all

theorem ServeHTTP_response (env : Env) (s : config) (r : Request) (payload : pushEventPayload)
    (vars : FormData)
    (hp : parseWebhookRequest r s.webhookSecretToken = .ok payload)
    (hv : computeTriggerVariables payload s = some vars) :
    (ServeHTTP env s r).1
      = match (triggerPipeline env s.gitlabHost s.triggerToken payload vars).1 with
        | .error _ => writeHeader 500
        | .ok _ => writeHeader 200 := by
  unfold ServeHTTP
  simp only [hp, hv]
  split <;> simp_all

theorem ServeHTTP_parse_error (env : Env) (s : config) (r : Request) (err : ParseError)
    (hp : parseWebhookRequest r s.webhookSecretToken = .error err) :
    ServeHTTP env s r = (httpError err.Error 400, []) := by
  unfold ServeHTTP
  simp only [hp]

theorem ServeHTTP_nil_entry (env : Env) (s : config) (r : Request) (payload : pushEventPayload)
    (hp : parseWebhookRequest r s.webhookSecretToken = .ok payload)
    (h : none ∈ payload.Commits) :
    ServeHTTP env s r = (writeHeader 500, []) := by
  unfold ServeHTTP
  simp only [hp, computeTriggerVariables_nil_entry payload s h]

/-! ## Path matching -/

/-- C1: as sets, the matched files are the tracked files that occur among the
changed paths, and the matched directories are the tracked directories that are a
literal leading segment of some changed path (so "foo" is matched by "foobar.txt");
a result is empty exactly when nothing matches it. -/
theorem C1_matchChangedToTrackedPaths_sets (C F D : List String) :
    (∀ f, f ∈ (matchChangedToTrackedPaths C F D).1 ↔ f ∈ F ∧ f ∈ C) ∧
    (∀ d, d ∈ (matchChangedToTrackedPaths C F D).2 ↔
      d ∈ D ∧ ∃ c ∈ C, ∃ rest : String, c = d ++ rest) ∧
    "foo" ∈ (matchChangedToTrackedPaths ["foobar.txt"] [] ["foo"]).2 ∧
    ((matchChangedToTrackedPaths C F D).1 = [] ↔ ∀ f ∈ F, f ∉ C) ∧
    ((matchChangedToTrackedPaths C F D).2 = [] ↔
      ∀ d ∈ D, ∀ c ∈ C, stringsHasPrefix c d = false) := by
  have hF : ∀ f, f ∈ (matchChangedToTrackedPaths C F D).1 ↔ f ∈ F ∧ f ∈ C := by
    intro f
    rw [matchChangedToTrackedPaths_eq, mem_scanMatches]
    simp
  have hD : ∀ d, d ∈ (matchChangedToTrackedPaths C F D).2 ↔
      d ∈ D ∧ ∃ c ∈ C, stringsHasPrefix c d = true := by
    intro d
    rw [matchChangedToTrackedPaths_eq, mem_scanMatches]
  refine ⟨hF, ?_, by decide, ?_, ?_⟩
  · intro d
    rw [hD]
    simp only [stringsHasPrefix_iff]
  · rw [List.eq_nil_iff_forall_not_mem]
    constructor
    · intro h f hf hc
      exact h f ((hF f).mpr ⟨hf, hc⟩)
    · intro h f hf
      obtain ⟨h1, h2⟩ := (hF f).mp hf
      exact h f h1 h2
  · rw [List.eq_nil_iff_forall_not_mem]
    constructor
    · intro h d hd c hc
      by_contra hne
      have : stringsHasPrefix c d = true := by simpa using hne
      exact h d ((hD d).mpr ⟨hd, c, hc, this⟩)
    · intro h d hd
      obtain ⟨h1, c, hc, h2⟩ := (hD d).mp hd
      rw [h d h1 c hc] at h2
      exact Bool.false_ne_true h2

/-! ## Variable construction -/

/-- C3: each value of `buildTriggerVariables` is the separator-join of the
deduplicated list; `removeDuplicates` has no element twice, has exactly the elements
of its input, orders them by first occurrence in the input, and equals the input
with every later repeat deleted; the files value does not depend on the directories
and the directories value does not depend on the files. -/
theorem C3_buildTriggerVariables_join_dedup (separator : String) (files directories : List String) :
    mapGet (buildTriggerVariables separator files directories) "variables[FILES_CHANGED]"
      = some [stringsJoin (removeDuplicates files) separator] ∧
    mapGet (buildTriggerVariables separator files directories) "variables[DIRECTORIES_CHANGED]"
      = some [stringsJoin (removeDuplicates directories) separator] ∧
    (∀ xs : List String,
      (removeDuplicates xs).Nodup ∧
      (∀ x, x ∈ removeDuplicates xs ↔ x ∈ xs) ∧
      (removeDuplicates xs).Pairwise (fun a b => xs.indexOf a < xs.indexOf b) ∧
      (removeDuplicates xs).Sublist xs ∧
      removeDuplicates xs = keepFirstOccurrences xs) ∧
    (∀ other : List String,
      mapGet (buildTriggerVariables separator files other) "variables[FILES_CHANGED]"
        = mapGet (buildTriggerVariables separator files directories) "variables[FILES_CHANGED]" ∧
      mapGet (buildTriggerVariables separator other directories) "variables[DIRECTORIES_CHANGED]"
        = mapGet (buildTriggerVariables separator files directories)
            "variables[DIRECTORIES_CHANGED]") := by
  have hne : ("variables[DIRECTORIES_CHANGED]" : String) ≠ "variables[FILES_CHANGED]" := by decide
  have hf : ∀ f d : List String,
      mapGet (buildTriggerVariables separator f d) "variables[FILES_CHANGED]"
        = some [stringsJoin (removeDuplicates f) separator] := by
    intro f d
    simp only [buildTriggerVariables]
    rw [mapGet_mapSet_ne _ _ _ _ hne, mapGet_mapSet_self]
  have hd : ∀ f d : List String,
      mapGet (buildTriggerVariables separator f d) "variables[DIRECTORIES_CHANGED]"
        = some [stringsJoin (removeDuplicates d) separator] := by
    intro f d
    simp only [buildTriggerVariables]
    rw [mapGet_mapSet_self]
  refine ⟨hf _ _, hd _ _, ?_, ?_⟩
  · intro xs
    rw [removeDuplicates_eq_keepFirstOccurrences]
    exact ⟨nodup_keepFirstOccurrences xs, mem_keepFirstOccurrences xs,
      keepFirstOccurrences_ordered xs, keepFirstOccurrences_sublist xs, rfl⟩
  · intro other
    rw [hf, hf, hd, hd]
    exact ⟨rfl, rfl⟩

/-- C8: the result of `buildTriggerVariables` has exactly the two keys
"variables[FILES_CHANGED]" and "variables[DIRECTORIES_CHANGED]", each mapped to a
sequence of exactly one string, which is the empty string when the corresponding
input list is empty. -/
theorem C8_buildTriggerVariables_two_keys (separator : String) (files directories : List String) :
    (mapKeys (buildTriggerVariables separator files directories)).Nodup ∧
    (mapKeys (buildTriggerVariables separator files directories)).length = 2 ∧
    (∀ k, k ∈ mapKeys (buildTriggerVariables separator files directories) ↔
      k = "variables[FILES_CHANGED]" ∨ k = "variables[DIRECTORIES_CHANGED]") ∧
    (∃ v : String,
      mapGet (buildTriggerVariables separator files directories) "variables[FILES_CHANGED]"
        = some [v]) ∧
    (∃ v : String,
      mapGet (buildTriggerVariables separator files directories) "variables[DIRECTORIES_CHANGED]"
        = some [v]) ∧
    mapGet (buildTriggerVariables separator [] directories) "variables[FILES_CHANGED]"
      = some [""] ∧
    mapGet (buildTriggerVariables separator files []) "variables[DIRECTORIES_CHANGED]"
      = some [""] ∧
    buildTriggerVariables separator [] []
      = [("variables[FILES_CHANGED]", [""]), ("variables[DIRECTORIES_CHANGED]", [""])] := by
  have hne : ("variables[FILES_CHANGED]" : String) ≠ "variables[DIRECTORIES_CHANGED]" := by decide
  have hshape : ∀ f d : List String, buildTriggerVariables separator f d
      = [("variables[FILES_CHANGED]", [stringsJoin (removeDuplicates f) separator]),
         ("variables[DIRECTORIES_CHANGED]", [stringsJoin (removeDuplicates d) separator])] := by
    intro f d
    simp [buildTriggerVariables, mapSet, hne]
  have hrd : removeDuplicates [] = [] := rfl
  refine ⟨?_, ?_, ?_, ?_, ?_, ?_, ?_, ?_⟩
  · rw [hshape]
    simp [mapKeys, hne]
  · rw [hshape]
    simp [mapKeys]
  · intro k
    rw [hshape]
    simp [mapKeys]
  · rw [hshape]
    exact ⟨stringsJoin (removeDuplicates files) separator, by simp [mapGet]⟩
  · rw [hshape]
    exact ⟨stringsJoin (removeDuplicates directories) separator, by simp [mapGet, hne]⟩
  · rw [hshape, hrd]
    simp [mapGet, stringsJoin]
  · rw [hshape, hrd]
    simp [mapGet, hne, stringsJoin]
  · rw [hshape, hrd]
    simp [stringsJoin]

/-- C9: deduplication is idempotent, and `buildTriggerVariables` gives the same
result on a match result and on its deduplicated form. -/
theorem C9_removeDuplicates_idempotent (separator : String) (files directories : List String) :
    (∀ xs : List String, removeDuplicates (removeDuplicates xs) = removeDuplicates xs) ∧
    buildTriggerVariables separator (removeDuplicates files) (removeDuplicates directories)
      = buildTriggerVariables separator files directories := by
  have h : ∀ xs : List String, removeDuplicates (removeDuplicates xs) = removeDuplicates xs := by
    intro xs
    simp only [removeDuplicates_eq_keepFirstOccurrences]
    exact keepFirstOccurrences_idem xs
  refine ⟨h, ?_⟩
  simp only [buildTriggerVariables, h]

/-- C10: for a payload with no null commit entry, the changed paths are scanned
commit by commit, within a commit the added, then the removed, then the modified
paths; FILES_CHANGED is the separator-join of the distinct tracked files equal to
some scanned path, DIRECTORIES_CHANGED the separator-join of the distinct tracked
directories that are a literal leading segment of some scanned path, each list
ordered by the first scanned path that matches (and, on the same path, by
configuration order). The example of the claim evaluates to "app/config.yml" and
"lib/". -/
theorem C10_computeTriggerVariables_scan (payload : pushEventPayload) (c : config)
    (hcommits : ∀ k ∈ payload.Commits, k ≠ none) :
    getChangedPathsInCommits payload = some (scannedPaths payload) ∧
    (∃ (vars : FormData) (files dirs : List String),
      computeTriggerVariables payload c = some vars ∧
      mapGet vars "variables[FILES_CHANGED]" = some [stringsJoin files c.separator] ∧
      mapGet vars "variables[DIRECTORIES_CHANGED]" = some [stringsJoin dirs c.separator] ∧
      files.Nodup ∧ dirs.Nodup ∧
      (∀ f, f ∈ files ↔ f ∈ c.trackedFiles ∧ f ∈ scannedPaths payload) ∧
      (∀ d, d ∈ dirs ↔
        d ∈ c.trackedDirectories ∧ ∃ p ∈ scannedPaths payload, stringsHasPrefix p d = true) ∧
      files.Pairwise
        (scanBefore (fun p f => decide (f = p)) (scannedPaths payload) c.trackedFiles) ∧
      dirs.Pairwise
        (scanBefore (fun p d => stringsHasPrefix p d) (scannedPaths payload)
          c.trackedDirectories) ∧
      files = keepFirstOccurrences
        (scanMatches (fun p f => decide (f = p)) (scannedPaths payload) c.trackedFiles) ∧
      dirs = keepFirstOccurrences
        (scanMatches (fun p d => stringsHasPrefix p d) (scannedPaths payload)
          c.trackedDirectories)) ∧
    computeTriggerVariables payloadDemo cfgDemo
      = some [("variables[FILES_CHANGED]", ["app/config.yml"]),
              ("variables[DIRECTORIES_CHANGED]", ["lib/"])] := by
  refine ⟨getChangedPathsInCommits_eq payload hcommits, ?_, by decide⟩
  refine ⟨_, _, _, computeTriggerVariables_eq payload c hcommits, ?_, ?_, ?_, ?_, ?_, ?_, ?_, ?_,
    rfl, rfl⟩
  · rw [buildTriggerVariables_eq]
    simp only [removeDuplicates_eq_keepFirstOccurrences]
    simp [mapGet]
  · have hne : ("variables[FILES_CHANGED]" : String) ≠ "variables[DIRECTORIES_CHANGED]" := by
      decide
    rw [buildTriggerVariables_eq]
    simp only [removeDuplicates_eq_keepFirstOccurrences]
    simp [mapGet, hne]
  · exact nodup_keepFirstOccurrences _
  · exact nodup_keepFirstOccurrences _
  · intro f
    rw [mem_keepFirstOccurrences, mem_scanMatches]
    simp
  · intro d
    rw [mem_keepFirstOccurrences, mem_scanMatches]
  · exact keepFirstOccurrences_scanMatches_ordered _ _ _
  · exact keepFirstOccurrences_scanMatches_ordered _ _ _

/-- C10 at the example of the claim: one commit modifying "app/config.yml",
"lib/util.go" and "README.md". -/
theorem C10_computeTriggerVariables_scan_witness :
    (∀ k ∈ payloadDemo.Commits, k ≠ none) ∧
    getChangedPathsInCommits payloadDemo
      = some ["app/config.yml", "lib/util.go", "README.md"] ∧
    computeTriggerVariables payloadDemo cfgDemo
      = some [("variables[FILES_CHANGED]", ["app/config.yml"]),
              ("variables[DIRECTORIES_CHANGED]", ["lib/"])] :=
  ⟨by decide,
    (C10_computeTriggerVariables_scan payloadDemo cfgDemo (by decide)).1.trans (by decide),
    (C10_computeTriggerVariables_scan payloadDemo cfgDemo (by decide)).2.2⟩

/-! ## Request validation -/

/-- C4: a request whose body does not decode to a push event (in particular one
that decodes with an event kind other than "push") is answered with status 400 and
no trigger call is made, whatever the other fields and the secret token
configuration are; `parseWebhookRequest` returns an error for it under every secret,
which is the unsupported-kind error whenever the payload decodes and the secret
token check passes. -/
theorem C4_non_push_rejected (env : Env) (s : config) (r : Request)
    (hkind : ∀ payload, r.Body = .ok payload → payload.ObjectKind ≠ "push") :
    (ServeHTTP env s r).1.status = 400 ∧
    (ServeHTTP env s r).2 = [] ∧
    (∀ secret : String, ∃ err, parseWebhookRequest r secret = .error err) ∧
    (∀ (secret : String) (payload : pushEventPayload), r.Body = .ok payload →
      secret = "" ∨ r.headerGet = secret →
      parseWebhookRequest r secret = .error .notPush) := by
  have hall : ∀ secret : String, ∃ err, parseWebhookRequest r secret = .error err := by
    intro secret
    cases hp : parseWebhookRequest r secret with
    | error err => exact ⟨err, rfl⟩
    | ok payload =>
      obtain ⟨_, hb, hk⟩ := (parseWebhookRequest_ok_iff r secret payload).mp hp
      exact absurd hk (hkind payload hb)
  obtain ⟨err, herr⟩ := hall s.webhookSecretToken
  refine ⟨?_, ?_, hall, ?_⟩
  · rw [ServeHTTP_parse_error env s r err herr]
    rfl
  · rw [ServeHTTP_parse_error env s r err herr]
  · intro secret payload hbody hs
    rw [parseWebhookRequest_not_push r secret payload hbody (hkind payload hbody)]
    apply if_neg
    rintro ⟨h1, h2⟩
    rcases hs with hs | hs
    · exact h1 hs
    · exact h2 hs

/-- C4 at a merge request event, with and without a configured secret. -/
theorem C4_non_push_rejected_witness :
    payloadMergeRequest.ObjectKind ≠ "push" ∧
    (ServeHTTP envCreated cfgDemo ⟨[], .ok payloadMergeRequest⟩).1.status = 400 ∧
    (ServeHTTP envCreated cfgSecret ⟨["s3cret"], .ok payloadMergeRequest⟩).2 = [] ∧
    parseWebhookRequest ⟨["s3cret"], .ok payloadMergeRequest⟩ "s3cret" = .error .notPush :=
  ⟨by decide,
    (C4_non_push_rejected envCreated cfgDemo ⟨[], .ok payloadMergeRequest⟩
      (fun _ h => by cases h; decide)).1,
    (C4_non_push_rejected envCreated cfgSecret ⟨["s3cret"], .ok payloadMergeRequest⟩
      (fun _ h => by cases h; decide)).2.1,
    (C4_non_push_rejected envCreated cfgSecret ⟨["s3cret"], .ok payloadMergeRequest⟩
      (fun _ h => by cases h; decide)).2.2.2 "s3cret" payloadMergeRequest rfl (Or.inr rfl)⟩

/-- C5: `parseWebhookRequest` fails with the secret token error exactly when the
configured secret is non-empty and differs from the value of the `x-gitlab-token`
header (empty when the header is missing); then the outcome does not depend on the
body, the handler answers 400 and makes no trigger call; with an empty configured
secret the header has no influence on the outcome. -/
theorem C5_secret_token_check (env : Env) (s : config) (r : Request) (secret : String) :
    (parseWebhookRequest r secret = .error .secretMismatch ↔
      secret ≠ "" ∧ r.headerGet ≠ secret) ∧
    ParseError.Error .secretMismatch = "webhook secret token does not match" ∧
    Request.headerGet ⟨[], r.Body⟩ = "" ∧
    (secret ≠ "" ∧ r.headerGet ≠ secret →
      ∀ body, parseWebhookRequest ⟨r.xGitlabToken, body⟩ secret = .error .secretMismatch) ∧
    (s.webhookSecretToken ≠ "" ∧ r.headerGet ≠ s.webhookSecretToken →
      ∀ body, (ServeHTTP env s ⟨r.xGitlabToken, body⟩).1.status = 400 ∧
        (ServeHTTP env s ⟨r.xGitlabToken, body⟩).2 = []) ∧
    (∀ header, parseWebhookRequest ⟨header, r.Body⟩ "" = parseWebhookRequest r "") ∧
    parseWebhookRequest r "" ≠ .error .secretMismatch := by
  have hbody : ∀ (sec : String), sec ≠ "" ∧ r.headerGet ≠ sec →
      ∀ body, parseWebhookRequest ⟨r.xGitlabToken, body⟩ sec = .error .secretMismatch := by
    intro sec h body
    exact (parseWebhookRequest_secretMismatch_iff ⟨r.xGitlabToken, body⟩ sec).mpr h
  refine ⟨parseWebhookRequest_secretMismatch_iff r secret, rfl, rfl, hbody secret, ?_, ?_, ?_⟩
  · intro h body
    rw [ServeHTTP_parse_error env s _ _ (hbody s.webhookSecretToken h body)]
    exact ⟨rfl, rfl⟩
  · intro header
    unfold parseWebhookRequest
    have hno : ∀ q : Request, ¬ (("" : String) ≠ "" ∧ q.headerGet ≠ "") := fun q hq => hq.1 rfl
    rw [if_neg (hno _), if_neg (hno _)]
  · intro h
    exact ((parseWebhookRequest_secretMismatch_iff r "").mp h).1 rfl

/-! ## Dispatch -/

/-- C2, as stated, fails: a valid push whose project homepage is ":" (no host
override configured) and a valid push whose `commits` array is `[null]` both pass
validation, and no trigger call is made for either. -/
theorem C2_counterexample :
    parseWebhookRequest ⟨[], .ok payloadColonHomepage⟩ cfgDemo.webhookSecretToken
      = .ok payloadColonHomepage ∧
    ServeHTTP envCreated cfgDemo ⟨[], .ok payloadColonHomepage⟩ = (⟨500, ""⟩, []) ∧
    parseWebhookRequest ⟨[], .ok payloadNullCommit⟩ cfgDemo.webhookSecretToken
      = .ok payloadNullCommit ∧
    ServeHTTP envCreated cfgDemo ⟨[], .ok payloadNullCommit⟩ = (⟨500, ""⟩, []) :=
  ⟨rfl, by decide, rfl, by decide⟩

/-- C2, amended: for a request that passes validation, whose `commits` array has no
null entry and whose project homepage is accepted by `url.Parse`, the handler makes
exactly one trigger call, whatever the commits touch and whatever
`total_commits_count` is; the posted form has exactly the four keys `token` (the
configured trigger token), `ref` (the ref of the event), `variables[FILES_CHANGED]`
and `variables[DIRECTORIES_CHANGED]`, the last two as computed by
`computeTriggerVariables`. -/
theorem C2_valid_push_dispatches_once (env : Env) (s : config) (r : Request)
    (payload : pushEventPayload) (webURL : URL)
    (hsecret : s.webhookSecretToken = "" ∨ r.headerGet = s.webhookSecretToken)
    (hbody : r.Body = .ok payload)
    (hkind : payload.ObjectKind = "push")
    (hcommits : ∀ k ∈ payload.Commits, k ≠ none)
    (hurl : env.urlParse payload.Project.Homepage = .ok webURL) :
    ∃ (call : PostCall) (vars : FormData),
      (ServeHTTP env s r).2 = [call] ∧
      computeTriggerVariables payload s = some vars ∧
      (mapKeys call.form).Nodup ∧
      (mapKeys call.form).length = 4 ∧
      (∀ k, k ∈ mapKeys call.form ↔
        k = "token" ∨ k = "ref" ∨ k = "variables[FILES_CHANGED]" ∨
          k = "variables[DIRECTORIES_CHANGED]") ∧
      mapGet call.form "token" = some [s.triggerToken] ∧
      mapGet call.form "ref" = some [payload.Ref] ∧
      mapGet call.form "variables[FILES_CHANGED]" = mapGet vars "variables[FILES_CHANGED]" ∧
      mapGet call.form "variables[DIRECTORIES_CHANGED]"
        = mapGet vars "variables[DIRECTORIES_CHANGED]" := by
  have hp : parseWebhookRequest r s.webhookSecretToken = .ok payload :=
    (parseWebhookRequest_ok_iff r _ payload).mpr ⟨hsecret, hbody, hkind⟩
  have hv := computeTriggerVariables_eq payload s hcommits
  have hcalls := ServeHTTP_calls env s r payload _ hp hv
  rw [triggerPipeline_calls env _ _ payload _ webURL hurl, dispatchForm_eq] at hcalls
  have h1 : ("variables[FILES_CHANGED]" : String) ≠ "token" := by decide
  have h2 : ("variables[DIRECTORIES_CHANGED]" : String) ≠ "token" := by decide
  have h3 : ("variables[FILES_CHANGED]" : String) ≠ "ref" := by decide
  have h4 : ("variables[DIRECTORIES_CHANGED]" : String) ≠ "ref" := by decide
  have h5 : ("token" : String) ≠ "ref" := by decide
  have h6 : ("variables[FILES_CHANGED]" : String) ≠ "variables[DIRECTORIES_CHANGED]" := by
    decide
  refine ⟨_, _, hcalls, hv, ?_, ?_, ?_, ?_, ?_, ?_, ?_⟩
  · simp [mapKeys, h1, h2, h3, h4, h5, h6]
  · simp [mapKeys]
  · intro k
    simp only [mapKeys, List.map_cons, List.map_nil, List.mem_cons, List.mem_singleton,
      List.not_mem_nil, or_false]
    tauto
  · simp [mapGet, h1, h2]
  · simp [mapGet, h3, h4, h5]
  · rw [buildTriggerVariables_eq]
    simp [mapGet]
  · rw [buildTriggerVariables_eq]
    simp [mapGet, h6]

/-- C2, amended, at a push that touches no tracked path and declares 25 commits
while one is present: one trigger call is made, both variables are empty strings. -/
theorem C2_valid_push_dispatches_once_witness :
    payloadUntracked.TotalCommitsCount ≠ (payloadUntracked.Commits.length : Int) ∧
    ∃ call : PostCall,
      (ServeHTTP envCreated cfgDemo ⟨[], .ok payloadUntracked⟩).2 = [call] ∧
      mapGet call.form "variables[FILES_CHANGED]" = some [""] ∧
      mapGet call.form "variables[DIRECTORIES_CHANGED]" = some [""] ∧
      mapGet call.form "token" = some ["t0k3n"] ∧
      mapGet call.form "ref" = some ["refs/heads/master"] := by
  refine ⟨by decide, ?_⟩
  obtain ⟨call, vars, hcall, hvars, _, _, _, htoken, href, hfiles, hdirs⟩ :=
    C2_valid_push_dispatches_once envCreated cfgDemo ⟨[], .ok payloadUntracked⟩ payloadUntracked
      ⟨"https", "gitlab.example.com"⟩ (Or.inl rfl) rfl rfl (by decide) (by rfl)
  have hv : computeTriggerVariables payloadUntracked cfgDemo
      = some [("variables[FILES_CHANGED]", [""]), ("variables[DIRECTORIES_CHANGED]", [""])] := by
    decide
  rw [hv] at hvars
  cases hvars
  exact ⟨call, hcall, hfiles.trans (by decide), hdirs.trans (by decide), htoken, href⟩

/-- C7: with a host override configured, a push whose project homepage is ":" is
not dispatched at all: `triggerPipeline` returns the error of `url.Parse` before it
looks at the override, and the handler answers 500; with a homepage that parses, the
same override gives the URL of the claim. -/
theorem C7_override_unparsable_homepage :
    triggerPipeline envCreated "https://gitlab.internal" "t0k3n" payloadColonHomepage []
      = (.error (.hostResolution "missing protocol scheme"), []) ∧
    ServeHTTP envCreated cfgOverride ⟨[], .ok payloadColonHomepage⟩ = (⟨500, ""⟩, []) ∧
    (triggerPipeline envCreated "https://gitlab.internal" "t0k3n" payloadDemo []).2.map PostCall.url
      = ["https://gitlab.internal/api/v4/projects/15/trigger/pipeline"] ∧
    (triggerPipeline envCreated "" "t0k3n" payloadDemo []).2.map PostCall.url
      = ["https://gitlab.example.com/api/v4/projects/15/trigger/pipeline"] :=
  ⟨rfl, by decide, by decide, by decide⟩

/-! ## Responses -/

/-- C6, as stated, fails: a push whose `commits` array is `[null]` passes
validation and its dispatch cannot fail (the downstream answers 201 to every call),
yet the handler answers 500 and makes no call; and the body of a 400 response is the
error text followed by a line feed, not the text itself. -/
theorem C6_counterexample :
    parseWebhookRequest ⟨[], .ok payloadNullCommit⟩ cfgDemo.webhookSecretToken
      = .ok payloadNullCommit ∧
    (∀ form : FormData,
      (triggerPipeline envCreated cfgDemo.gitlabHost cfgDemo.triggerToken payloadNullCommit
        form).1 = .ok ()) ∧
    ServeHTTP envCreated cfgDemo ⟨[], .ok payloadNullCommit⟩ = (⟨500, ""⟩, []) ∧
    parseWebhookRequest ⟨[], .ok payloadDemo⟩ cfgSecret.webhookSecretToken
      = .error .secretMismatch ∧
    (ServeHTTP envCreated cfgSecret ⟨[], .ok payloadDemo⟩).1
      = ⟨400, "webhook secret token does not match\n"⟩ ∧
    (ServeHTTP envCreated cfgSecret ⟨[], .ok payloadDemo⟩).1.body
      ≠ ParseError.Error .secretMismatch :=
  ⟨rfl, fun _ => rfl, by decide, rfl, by decide, by decide⟩

/-- C6, amended: the response is status 400 with the validation error's text and a
line feed as body if and only if `parseWebhookRequest` fails; otherwise it is status
500 with an empty body if the `commits` array has a null entry (a recovered runtime
fault) or if `triggerPipeline` fails, and status 200 with an empty body if
`triggerPipeline` succeeds. `triggerPipeline` fails when the homepage does not
parse, when the transport fails, and for every downstream status of 400 or more; it
succeeds for every downstream status below 400 (so 502 gives 500 and 201 gives 200). -/
theorem C6_response_determination (env : Env) (s : config) (r : Request) :
    ((ServeHTTP env s r).1.status = 400 ↔
      ∃ err, parseWebhookRequest r s.webhookSecretToken = .error err) ∧
    (∀ err, parseWebhookRequest r s.webhookSecretToken = .error err →
      ServeHTTP env s r = (⟨400, err.Error ++ "\n"⟩, [])) ∧
    (∀ payload, parseWebhookRequest r s.webhookSecretToken = .ok payload →
      (none ∈ payload.Commits → ServeHTTP env s r = (⟨500, ""⟩, [])) ∧
      ((∀ k ∈ payload.Commits, k ≠ none) →
        ∃ vars, computeTriggerVariables payload s = some vars ∧
          (∀ e, (triggerPipeline env s.gitlabHost s.triggerToken payload vars).1 = .error e →
            (ServeHTTP env s r).1 = ⟨500, ""⟩) ∧
          ((triggerPipeline env s.gitlabHost s.triggerToken payload vars).1 = .ok () →
            (ServeHTTP env s r).1 = ⟨200, ""⟩))) ∧
    (∀ (gitlabHost triggerToken : String) (payload : pushEventPayload) (form : FormData),
      (∀ msg, env.urlParse payload.Project.Homepage = .error msg →
        (triggerPipeline env gitlabHost triggerToken payload form).1
          = .error (.hostResolution msg)) ∧
      (∀ call ∈ (triggerPipeline env gitlabHost triggerToken payload form).2,
        (∀ msg, env.postForm call.url call.form = .error msg →
          (triggerPipeline env gitlabHost triggerToken payload form).1
            = .error (.transport msg)) ∧
        (∀ resp, env.postForm call.url call.form = .ok resp →
          (400 ≤ resp.StatusCode →
            (triggerPipeline env gitlabHost triggerToken payload form).1
              = .error (.rejected resp.Status)) ∧
          (resp.StatusCode < 400 →
            (triggerPipeline env gitlabHost triggerToken payload form).1 = .ok ())))) ∧
    (ServeHTTP envBadGateway cfgDemo ⟨[], .ok payloadDemo⟩).1 = ⟨500, ""⟩ ∧
    (ServeHTTP envCreated cfgDemo ⟨[], .ok payloadDemo⟩).1 = ⟨200, ""⟩ := by
  refine ⟨?_, ?_, ?_, ?_, by decide, by decide⟩
  · constructor
    · intro h
      cases hp : parseWebhookRequest r s.webhookSecretToken with
      | error err => exact ⟨err, rfl⟩
      | ok payload =>
        exfalso
        by_cases hn : none ∈ payload.Commits
        · rw [ServeHTTP_nil_entry env s r payload hp hn] at h
          revert h
          decide
        · have hc : ∀ k ∈ payload.Commits, k ≠ none := fun k hk e => hn (e ▸ hk)
          rw [ServeHTTP_response env s r payload _ hp
            (computeTriggerVariables_eq payload s hc)] at h
          revert h
          split <;> decide
    · rintro ⟨err, herr⟩
      rw [ServeHTTP_parse_error env s r err herr]
      rfl
  · intro err herr
    rw [ServeHTTP_parse_error env s r err herr]
    rfl
  · intro payload hp
    refine ⟨fun hn => ServeHTTP_nil_entry env s r payload hp hn, ?_⟩
    intro hc
    have hv := computeTriggerVariables_eq payload s hc
    refine ⟨_, hv, ?_, ?_⟩
    · intro e he
      rw [ServeHTTP_response env s r payload _ hp hv, he]
      rfl
    · intro he
      rw [ServeHTTP_response env s r payload _ hp hv, he]
      rfl
  · intro gitlabHost triggerToken payload form
    constructor
    · intro msg hmsg
      rw [triggerPipeline_parse_error env _ _ payload form msg hmsg]
    · intro call hcall
      cases hu : env.urlParse payload.Project.Homepage with
      | error msg =>
        rw [triggerPipeline_parse_error env _ _ payload form msg hu] at hcall
        cases hcall
      | ok webURL =>
        rw [triggerPipeline_calls env _ _ payload form webURL hu] at hcall
        have hc : call = _ := List.mem_singleton.mp hcall
        subst hc
        rw [triggerPipeline_result env _ _ payload form webURL hu]
        constructor
        · intro msg hmsg
          simp only [hmsg]
        · intro resp hresp
          simp only [hresp]
          constructor
          · intro hge
            rw [if_pos hge]
          · intro hlt
            rw [if_neg (Nat.not_le.mpr hlt)]

end GitlabTriggerProxy
